import Mathlib

/-!
Verification of the mako-js bundling plugin (dependency-graph resolution and
packing engine). Definitions are shallow embeddings of the JavaScript source:
the stabilized plugin variant (`src/unnamed/part_001`) and, where a claim cites
them, the earlier variants in `src/index.js` and `src/unnamed/part_000`.
The host build tree (mako-tree) and the external collaborators (resolver,
syntax validator, dependency extractor) are not part of this repository's
source; the definitions that stand in for them are modelled from the spec and
say so in their doc comments.
-/

namespace MakoJs

/-- A module record prepared for the packer, as built by `prepare` in
part_001: id, specifier-to-identity map, source text, sourceFile (only with
source maps), entry flag. -/
structure Record where
  id : String
  deps : List (String × String)
  source : String
  sourceFile : Option String
  entry : Bool
deriving Repr, DecidableEq

/-- A file (module node) as seen by the plugin hooks: path, root-relative id,
type, contents, entry flag, shared-bundle flag, resolved specifier map
(`file.deps`), accumulated mapping buffer (`file.mapping`), and the advisory
package metadata attached by the resolver (`file.pkg`). -/
structure File where
  path : String
  id : String
  type : String
  contents : String
  entry : Bool
  bundle : Bool
  deps : List (String × String)
  mapping : List (String × Record)
  pkg : Option String := none
deriving Repr, DecidableEq

/-- Modelled from the spec: the mako build tree (Build Graph, spec section 4.2)
is provided by the host pipeline, not by this repository. Nodes are files keyed
by path; a directed edge (a, b) records that file a depends on file b (a is a
dependant of b). -/
structure Tree where
  files : List File
  edges : List (String × String)
deriving Repr, DecidableEq

def Tree.findFile (t : Tree) (p : String) : Option File :=
  t.files.find? (fun f => f.path == p)

/-- Modelled from the spec: `file.dependants` (spec section 4.2), the current
direct dependants of the node at path p, as file objects. -/
def Tree.dependantsOf (t : Tree) (p : String) : List File :=
  (((t.edges.filter (fun e => e.2 == p)).map Prod.fst).dedup).filterMap t.findFile

/-- Modelled from the spec: `tree.graph.outDegree` (spec section 4.2), the
count of distinct direct dependants of the node at path p. -/
def Tree.outDegree (t : Tree) (p : String) : Nat :=
  ((t.edges.filter (fun e => e.2 == p)).map Prod.fst).dedup.length

/-- Modelled from the spec: `tree.removeDependency(parent, child)` removes the
dependency edge from parent to child. -/
def Tree.removeDependency (t : Tree) (parent child : String) : Tree :=
  { t with edges := t.edges.filter (fun e => !(e.1 == parent && e.2 == child)) }

/-- Modelled from the spec: `tree.removeFile(path)` removes the node and its
incident edges. -/
def Tree.removeFile (t : Tree) (p : String) : Tree :=
  { files := t.files.filter (fun f => f.path != p)
  , edges := t.edges.filter (fun e => !(e.1 == p) && !(e.2 == p)) }

/-- Modelled from the spec: `tree.addFile(path)` creates the node if absent
(idempotent), returning the tree with the node present. -/
def Tree.addFile (t : Tree) (p : String) : Tree :=
  if t.files.any (fun f => f.path == p) then t
  else { t with files := t.files ++ [{ path := p, id := p, type := "js", contents := ""
                                     , entry := false, bundle := false, deps := [], mapping := [] }] }

def Tree.updateFile (t : Tree) (p : String) (g : File → File) : Tree :=
  { t with files := t.files.map (fun f => if f.path == p then g f else f) }

/-- `isRoot` from part_001 lines 285-296 (identical in src/index.js lines
376-387): an entry file is a root; a file with no dependants is a root; a file
with some non-js dependant is a root. -/
def isRoot (t : Tree) (file : File) : Bool :=
  if file.entry then true
  else
    let dependants := t.dependantsOf file.path
    if dependants.length == 0 then true
    else dependants.any (fun f => f.type != "js")

/-- `json` postread hook from part_001 lines 60-62 (same in part_000 and in the
second variant of src/index.js): wrap the JSON text in an assignment
expression with a trailing semicolon. -/
def json (f : File) : File :=
  { f with contents := "module.exports = " ++ f.contents ++ ";" }

/-- `json` from the first variant in src/index.js lines 36-38: a template
literal without the trailing semicolon. -/
def jsonV0 (f : File) : File :=
  { f with contents := "module.exports = " ++ f.contents }

/-- The comparator of `sort` in part_001 lines 254-258: a comes before b iff
a.id is strictly below b.id in the string order. -/
def recLt (a b : Record) : Prop := a.id < b.id

instance : DecidableRel recLt := fun a b => (inferInstance : Decidable (a.id < b.id))

/-- `sort` from part_001 lines 254-258: sort the records by the comparator on
ids. -/
def sort (deps : List Record) : List Record :=
  List.insertionSort recLt deps

/-- Plugin configuration (part_001 `defaults`, lines 24-31): shared-bundle
path (absence disables partitioning), extra resolvable extensions, root
directory, source-map mode, source-map root label. -/
structure Config where
  bundle : Option String
  extensions : List String
  root : String
  sourceMaps : Bool
  sourceRoot : String
deriving Repr, DecidableEq

/-- Property assignment m[k] = v on a JS object modelled as an
insertion-ordered association list: overwrite in place when the key exists,
append otherwise. -/
def assignKey {α : Type} (m : List (String × α)) (k : String) (v : α) : List (String × α) :=
  if m.any (fun kv => kv.1 == k) then
    m.map (fun kv => if kv.1 == k then (k, v) else kv)
  else m ++ [(k, v)]

/-- Object.assign(target, src) on record maps: assign the source entries onto
the target in order (later assignments overwrite earlier keys). -/
def mapAssign (target src : List (String × Record)) : List (String × Record) :=
  src.foldl (fun acc kv => assignKey acc kv.1 kv.2) target

/-- `values` (the object-values helper): the records of a mapping in key
insertion order. -/
def values (m : List (String × Record)) : List Record :=
  m.map Prod.snd

/-- `prepare` from part_001 lines 211-219: the pure projection of a file into
a module record. `file.deps` defaults to the empty map, which the embedding's
list field already guarantees. -/
def prepare (cfg : Config) (t : Tree) (file : File) : Record :=
  { id := file.id
  , deps := file.deps
  , source := file.contents
  , sourceFile := if cfg.sourceMaps then some file.id else none
  , entry := isRoot t file }

/-- `initMapping` from part_001 lines 229-233: make sure the mapping buffer
exists (the embedding's default is the empty buffer) and, when a record is
given, assign it under its id; the resulting buffer is returned. -/
def initMapping (file : File) (dep : Option Record) : List (String × Record) :=
  match dep with
  | some d => assignKey file.mapping d.id d
  | none => file.mapping

/-- What `doPack` (part_001 lines 306-313) hands to the external browser-pack
packer: the target file path, the sorted record collection, and whether the
registry is exposed as a reusable entry point (hasExports, set exactly in
shared-bundle mode, lines 307). The byte-level packing itself is external. -/
structure Output where
  path : String
  mapping : List Record
  hasExports : Bool
deriving Repr, DecidableEq

/-- The packer hand-off for one bundle. -/
def doPack (p : String) (mapping : List Record) (hasExports : Bool) : Output :=
  { path := p, mapping := mapping, hasExports := hasExports }

/-- Modelled from the spec: path.resolve(root, bundlePath) for the simple case
of a relative bundle path under the root. -/
def resolveUnder (root b : String) : String :=
  if root == "" then b else root ++ "/" ++ b

/-- The shared-bundle accumulator: record map keyed by id. -/
abbrev SharedMap := List (String × Record)

/-- The plugin-level WeakMap from build trees to their shared-bundle
accumulators (part_001 line 21); trees are identified by a numeric key and the
WeakMap is modelled as a partial function from keys. -/
abbrev Bundles := Nat → Option SharedMap

/-- The WeakMap with no entries. -/
def noBundles : Bundles := fun _ => none

def bget (bs : Bundles) (tid : Nat) : Option SharedMap := bs tid

def bset (bs : Bundles) (tid : Nat) (m : SharedMap) : Bundles :=
  fun k => if k == tid then some m else bs k

/-- `getBundle` from part_001 lines 339-345: look up the shared-bundle map for
this build tree, creating an empty one on first use. -/
def getBundle (bs : Bundles) (tid : Nat) : SharedMap × Bundles :=
  match bget bs tid with
  | some m => (m, bs)
  | none => ([], bset bs tid [])

/-- Persisting an in-place mutation of the shared-bundle map back into the
WeakMap state. -/
def writeBack (bs : Bundles) (tid : Nat) (b : Option SharedMap) : Bundles :=
  match b with
  | some m => bset bs tid m
  | none => bs

/-- The body of `pack` from part_001 lines 169-202, given the shared-bundle
map fetched for this tree (none exactly when shared-bundle mode is off —
`config.bundle ? getBundle(build.tree) : null`). Steps, in source order:
classify the node (isRoot), prepare its record, insert the record into the
shared map when the node is marked shared, then for every current dependant
assign `initMapping(parent, bundle ? null : dep)` extended with this node's
own mapping buffer and drop the dependency edge; finally remove the node
unless it is a root, in which case hand its sorted buffer (and, in
shared-bundle mode, the sorted shared map) to the packer. Returns the new
tree, the shared map to persist, and the outputs. -/
def packCore (cfg : Config) (t : Tree) (outs : List Output) (file : File) (p : String)
    (b0 : Option SharedMap) : Tree × Option SharedMap × List Output :=
  let root := isRoot t file
  let dep := prepare cfg t file
  let b1 : Option SharedMap :=
    if file.bundle then b0.map (fun m => assignKey m file.id dep) else b0
  let initArg : Option Record := match b1 with | some _ => none | none => some dep
  let parents := (t.dependantsOf p).map File.path
  let t1 := parents.foldl (fun acc q =>
      let fmap := ((acc.findFile p).map File.mapping).getD []
      let acc1 := acc.updateFile q (fun parent =>
        { parent with mapping := mapAssign (initMapping parent initArg) fmap })
      acc1.removeDependency q p) t
  if !root then
    (t1.removeFile p, b1, outs)
  else
    let fm := initMapping ((t1.findFile p).getD file) (some dep)
    let t2 := t1.updateFile p (fun f => { f with mapping := fm })
    let outs1 := outs ++ [doPack p (sort (values fm)) cfg.bundle.isSome]
    match b1, cfg.bundle with
    | some bm, some bpath =>
      let bundlePath := resolveUnder cfg.root bpath
      (t2.addFile bundlePath, some bm, outs1 ++ [doPack bundlePath (sort (values bm)) true])
    | _, _ => (t2, b1, outs1)

/-- `pack` postdependencies hook from part_001 lines 169-202, state-passing
over (tree, WeakMap of shared maps, packer outputs): fetch the shared map for
this tree when shared-bundle mode is on, run the body, persist the possibly
mutated shared map back into the WeakMap. -/
def pack (cfg : Config) (tid : Nat) :
    Tree × Bundles × List Output → String → Tree × Bundles × List Output
  | (t, bs, outs), p =>
    match t.findFile p with
    | none => (t, bs, outs)
    | some file =>
      match cfg.bundle with
      | none =>
        let r := packCore cfg t outs file p none
        (r.1, writeBack bs tid r.2.1, r.2.2)
      | some _ =>
        let g := getBundle bs tid
        let r := packCore cfg t outs file p (some g.1)
        (r.1, writeBack g.2 tid r.2.1, r.2.2)

/-- The postdependencies stage run over the nodes of a build in their
completion order (the host pipeline schedules children before the dependants
whose resolution they complete). -/
def packAll (cfg : Config) (tid : Nat) (t : Tree) (bs : Bundles) (order : List String) :
    Tree × Bundles × List Output :=
  order.foldl (pack cfg tid) (t, bs, [])

/-- Modelled from the spec: the direct dependency identities of node p, the
edge targets out of p (spec section 4.2). -/
def childPaths (edges : List (String × String)) (p : String) : List String :=
  (edges.filter (fun e => e.1 == p)).map Prod.snd

/-- One dependency step along the edges. -/
def DepStep (edges : List (String × String)) (a b : String) : Prop := (a, b) ∈ edges

/-- The transitive dependency closure relation (spec section 4.2). -/
def InClosure (edges : List (String × String)) (p q : String) : Prop :=
  Relation.TransGen (DepStep edges) p q

/-- The one-step frontier of a visited set: children of visited nodes not yet
visited. -/
def expandNew (edges : List (String × String)) (s : List String) : List String :=
  ((s.flatMap (childPaths edges)).dedup).filter (fun q => decide (q ∉ s))

/-- Fixpoint iteration computing the closure of a seed set under the
dependency step; the fuel below is always large enough to reach the
fixpoint. -/
def closeAux (edges : List (String × String)) : Nat → List String → List String
  | 0, s => s
  | n+1, s =>
    if (expandNew edges s).isEmpty then s
    else closeAux edges n (s ++ expandNew edges s)

/-- Modelled from the spec: `file.dependencies` with the recursive flag (spec
section 4.2) — every node in the transitive dependency closure of p. -/
def dependenciesRec (edges : List (String × String)) (p : String) : List String :=
  closeAux edges ((edges.map Prod.snd).dedup.length + 1) (childPaths edges p).dedup

/-- A set of paths closed under the dependency step. -/
def ClosedUnder (edges : List (String × String)) (s : List String) : Prop :=
  ∀ q ∈ s, ∀ r ∈ childPaths edges q, r ∈ s

/-- The shared mark of the node at path p (`file.bundle`). -/
def Tree.isMarked (t : Tree) (p : String) : Bool :=
  ((t.findFile p).map File.bundle).getD false

/-- Set the shared mark on the node at path p (`file.bundle = true`). -/
def Tree.markPath (t : Tree) (p : String) : Tree :=
  { t with files := t.files.map (fun f => if f.path == p then { f with bundle := true } else f) }

/-- One visit of the partition scan (part_001 lines 147-156): skip a node
already marked shared (short-circuit), otherwise when its out-degree exceeds
1 mark it shared and mark its whole recursive dependency closure shared. -/
def bundleVisit (t : Tree) (p : String) : Tree :=
  if t.isMarked p then t
  else if t.outDegree p > 1 then
    let t1 := t.markPath p
    (dependenciesRec t1.edges p).foldl Tree.markPath t1
  else t

/-- The `bundle` postanalyze hook from part_001 lines 141-160: visit every
script/JSON file of the tree once. -/
def bundle (t : Tree) : Tree :=
  ((t.files.filter (fun f => f.type == "js" || f.type == "json")).map File.path).foldl
    bundleVisit t

/-- Marked nodes absorb their closure: every node of the tree reachable from a
marked node is marked. The invariant of the partition scan. -/
def MarkedClosed (t0 t : Tree) : Prop :=
  ∀ q, t.isMarked q = true → ∀ r, InClosure t0.edges q r →
    (t0.findFile r).isSome = true → t.isMarked r = true

/-- Concrete cyclic fixture for the C3 witness: two entries requiring c.js,
which requires d.js, which requires c.js back. -/
def cfileA : File :=
  { path := "a.js", id := "a.js", type := "js", contents := "module.exports = 1;"
  , entry := true, bundle := false, deps := [("./c", "c.js")], mapping := [] }

/-- Second entry of the cyclic fixture. -/
def cfileB : File :=
  { path := "b.js", id := "b.js", type := "js", contents := "module.exports = 2;"
  , entry := true, bundle := false, deps := [("./c", "c.js")], mapping := [] }

/-- The shared node of the cyclic fixture. -/
def cfileC : File :=
  { path := "c.js", id := "c.js", type := "js", contents := "module.exports = 3;"
  , entry := false, bundle := false, deps := [("./d", "d.js")], mapping := [] }

/-- The cycle partner of the cyclic fixture. -/
def cfileD : File :=
  { path := "d.js", id := "d.js", type := "js", contents := "module.exports = 4;"
  , entry := false, bundle := false, deps := [("./c", "c.js")], mapping := [] }

/-- The cyclic build graph for the C3 witness. -/
def cycTree : Tree :=
  { files := [cfileA, cfileB, cfileC, cfileD]
  , edges := [("a.js", "c.js"), ("b.js", "c.js"), ("c.js", "d.js"), ("d.js", "c.js")] }

/-- The module record shape of the earliest variants (duo-pack), as built by
`prepare` in part_000 (lines 299-307): id, specifier map, type, source,
entry flag. -/
structure DuoRecord where
  id : String
  deps : List (String × String)
  type : String
  src : String
  entry : Bool
deriving Repr, DecidableEq

/-- `prepare` from the second variant in part_000 (lines 299-307). -/
def prepareV2 (f : File) (entry : Bool) : DuoRecord :=
  { id := f.id, deps := f.deps, type := f.type, src := f.contents, entry := entry }

/-- `combine` postdependencies hook from the second variant in part_000
(lines 267-290). The mapping accumulator is the plugin-instance-level
`let mapping = Object.create(null)` of line 189, threaded here as state that
persists across builds of the same plugin instance: compute whether the file
is topmost among script dependants, add its record to the plugin mapping,
drop the dependant edges, and remove the file unless it is topmost. -/
def combineV2 (st : Tree × List (String × DuoRecord)) (p : String) :
    Tree × List (String × DuoRecord) :=
  match st.1.findFile p with
  | none => st
  | some file =>
    let t := st.1
    let entry := ((t.dependantsOf p).filter (fun f => f.type == "js")).length == 0
    let m2 := assignKey st.2 file.id (prepareV2 file entry)
    let t1 := ((t.dependantsOf p).map File.path).foldl (fun acc q => acc.removeDependency q p) t
    let t2 := if !entry then t1.removeFile p else t1
    (t2, m2)

/-- `pack` prewrite hook from the second variant in part_000 (lines 314-319):
the packer (duo-pack) is constructed over the whole plugin-level mapping and
invoked with the current file's id. -/
def packV2 (mapping : List (String × DuoRecord)) (f : File) :
    List (String × DuoRecord) × String :=
  (mapping, f.id)

/-- Concrete fixture for C9: the only file of build 1. -/
def fb1 : File :=
  { path := "one/a.js", id := "one/a.js", type := "js", contents := "module.exports = 1;"
  , entry := true, bundle := false, deps := [], mapping := [] }

/-- Concrete fixture for C9: the only file of build 2. -/
def fb2 : File :=
  { path := "two/b.js", id := "two/b.js", type := "js", contents := "module.exports = 2;"
  , entry := true, bundle := false, deps := [], mapping := [] }

/-- Build 1's tree for C9. -/
def treeB1 : Tree := { files := [fb1], edges := [] }

/-- Build 2's tree for C9. -/
def treeB2 : Tree := { files := [fb2], edges := [] }

/-- The error kinds of the build (spec section 7): a resolution failure names
the specifier and the requesting module; a syntax failure names the offending
file and its position. -/
inductive BuildError where
  | syntaxErr (file : String) (line col : Nat)
  | resolutionErr (specifier : String) (fromFile : String)
deriving Repr, DecidableEq

/-- `check` predependencies hook from part_001 lines 81-86: run the external
syntax validator (the syntax-error package, modelled from the spec as a
function from contents to an optional error position) and throw a parse error
carrying the file's path and the reported position when it finds one. -/
def check (checker : String → Option (Nat × Nat)) (file : File) : Except BuildError Unit :=
  match checker file.contents with
  | some pos => .error (.syntaxErr file.path pos.1 pos.2)
  | none => .ok ()

/-- Modelled from the spec: path.relative(root, abs) — identities are
root-relative paths (spec section 6, stage 2) — for the simple case of a file
below the root. -/
def relativeTo (root p : String) : String :=
  if root == "" then p
  else if p.startsWith (root ++ "/") then p.drop (root.length + 1) else p

/-- `id` predependencies hook from part_001 lines 69-71: the file's identity
is its root-relative path. -/
def id (cfg : Config) (f : File) : File :=
  { f with id := relativeTo cfg.root f.path }

/-- `npm` dependencies hook from part_001 lines 95-127: reset `file.deps`,
postprocess the contents (envify and insert-module-globals, external), then
resolve every specifier extracted by the external dependency extractor
(file-deps). Each successful resolution stores the root-relative identity in
`file.deps`, attaches the advisory package metadata, and records the
dependency edge to add (the returned path list); a failed resolution — the
external browser-resolve matching neither a file nor a built-in shim — rejects
the whole batch with an error naming the specifier and the requesting module
(Promise.all is fail-fast). -/
def npm (resolver : String → String → Option (String × Option String))
    (extract : String → List String) (post : String → String) (root : String)
    (file : File) : Except BuildError (File × List String) :=
  let f0 := { file with deps := ([] : List (String × String)), contents := post file.contents }
  (extract f0.contents).foldlM
    (fun (acc : File × List String) dep =>
      match resolver dep acc.1.path with
      | none => .error (.resolutionErr dep acc.1.path)
      | some res =>
        let f1 := { acc.1 with pkg := res.2, deps := assignKey acc.1.deps dep (relativeTo root res.1) }
        .ok (f1, acc.2 ++ [res.1]))
    (f0, [])

/-- Modelled from the spec: the host pipeline runs the registered stages of
part_001 lines 46-53 in order on one module — postread json (json files),
predependencies id (js and json), predependencies check (js only),
dependencies npm (js only) — and a thrown error aborts that module's
processing. -/
def processOne (cfg : Config) (checker : String → Option (Nat × Nat))
    (resolver : String → String → Option (String × Option String))
    (extract : String → List String) (post : String → String) (f : File) :
    Except BuildError (File × List String) :=
  let f1 := if f.type == "json" then json f else f
  let f2 := if f1.type == "js" || f1.type == "json" then id cfg f1 else f1
  if f2.type == "js" then
    match check checker f2 with
    | .error e => .error e
    | .ok _ => npm resolver extract post cfg.root f2
  else .ok (f2, [])

/-- Modelled from the spec: the resolution phase of a build processes the read
modules and is fail-fast at whole-build granularity — one module's error
rejects the build, and a rejected build emits no bundle (the error result
carries no module outcomes at all). -/
def build (cfg : Config) (checker : String → Option (Nat × Nat))
    (resolver : String → String → Option (String × Option String))
    (extract : String → List String) (post : String → String) (files : List File) :
    Except BuildError (List (File × List String)) :=
  files.mapM (processOne cfg checker resolver extract post)

/-- A concrete syntax validator for witnesses: rejects exactly the broken
fixture contents at line 1, column 10. -/
def checker0 (s : String) : Option (Nat × Nat) :=
  if s == "function (" then some (1, 10) else none

/-- A concrete resolver for witnesses: resolves nothing. -/
def resolver0 (_dep _fromPath : String) : Option (String × Option String) := none

/-- A concrete extractor for witnesses: the entry fixture requires ./missing. -/
def extract0 (s : String) : List String :=
  if s == "module.exports = 1;" then ["./missing"] else []

/-- The identity postprocessor for witnesses. -/
def post0 (s : String) : String := s

/-- A concrete file with invalid syntax for the C8 witness. -/
def badSyntaxFile : File :=
  { path := "bad.js", id := "bad.js", type := "js", contents := "function ("
  , entry := true, bundle := false, deps := [], mapping := [] }

/-- Concrete fixture: a dependency file with a single script dependant. -/
def fileP : File :=
  { path := "p.js", id := "p.js", type := "js", contents := "module.exports = 2;"
  , entry := false, bundle := false, deps := [], mapping := [] }

/-- Concrete fixture: the entry file requiring fileP. -/
def fileA : File :=
  { path := "a.js", id := "a.js", type := "js", contents := "module.exports = 1;"
  , entry := true, bundle := false, deps := [("./p", "p.js")], mapping := [] }

/-- Concrete fixture: the two-file build graph a.js -> p.js. -/
def bugTree : Tree := { files := [fileA, fileP], edges := [("a.js", "p.js")] }

/-- Concrete configuration with shared-bundle mode active. -/
def bundleConfig : Config :=
  { bundle := some "shared.js", extensions := [], root := "", sourceMaps := false
  , sourceRoot := "file://mako" }

/-- Concrete configuration with shared-bundle mode off. -/
def plainConfig : Config :=
  { bundle := none, extensions := [], root := "", sourceMaps := false
  , sourceRoot := "file://mako" }

/-- A concrete record used by witnesses. -/
def recA : Record :=
  { id := "a.js", deps := [], source := "module.exports = 1;", sourceFile := none, entry := true }

/-- A second concrete record used by witnesses. -/
def recB : Record :=
  { id := "b.js", deps := [], source := "module.exports = 2;", sourceFile := none, entry := false }

/-- A concrete JSON file for the C10 counterexample. -/
def jsonFixture : File :=
  { path := "config.json", id := "config.json", type := "json", contents := "1"
  , entry := false, bundle := false, deps := [], mapping := [] }

end MakoJs

namespace MakoJs

/-- C2: the root classifier returns true exactly when the node carries the
entry flag, or currently has zero dependants, or has at least one dependant
that is not of script (js) kind. -/
theorem isRoot_iff (t : Tree) (f : File) :
    isRoot t f = true ↔
      f.entry = true ∨ t.dependantsOf f.path = [] ∨
        ∃ d ∈ t.dependantsOf f.path, d.type ≠ "js" := by
  unfold isRoot
  by_cases he : f.entry = true
  · simp [he]
  · simp only [Bool.not_eq_true] at he
    simp only [he, Bool.false_eq_true, if_false]
    by_cases hnil : t.dependantsOf f.path = []
    · simp [hnil]
    · have hlen : ((t.dependantsOf f.path).length == 0) = false := by
        simp [List.length_eq_zero, hnil]
      simp [hlen, he, hnil, List.any_eq_true]

theorem pairwise_orderedInsert (a : Record) :
    ∀ l : List Record, l.Pairwise recLt → (∀ b ∈ l, a.id ≠ b.id) →
      (List.orderedInsert recLt a l).Pairwise recLt
  | [], _, _ => by simp [List.orderedInsert]
  | b :: t, hl, ha => by
    rcases List.pairwise_cons.mp hl with ⟨hb, ht⟩
    by_cases hab : recLt a b
    · simp only [List.orderedInsert, if_pos hab]
      refine List.pairwise_cons.mpr ⟨?_, hl⟩
      intro c hc
      rcases List.mem_cons.mp hc with rfl | hc
      · exact hab
      · exact lt_trans hab (hb c hc)
    · simp only [List.orderedInsert, if_neg hab]
      refine List.pairwise_cons.mpr
        ⟨?_, pairwise_orderedInsert a t ht (fun c hc => ha c (List.mem_cons_of_mem _ hc))⟩
      intro c hc
      rcases (List.mem_orderedInsert recLt).mp hc with hca | hc
      · rw [hca]
        exact lt_of_le_of_ne (le_of_not_lt hab) (Ne.symm (ha b (List.mem_cons_self b t)))
      · exact hb c hc

theorem sort_pairwise : ∀ l : List Record, (l.map Record.id).Nodup → (sort l).Pairwise recLt
  | [], _ => by simp [sort, List.insertionSort]
  | a :: t, h => by
    have h2 : (∀ x ∈ t, ¬ x.id = a.id) ∧ (List.map Record.id t).Nodup := by simpa using h
    have hs := sort_pairwise t h2.2
    show (List.orderedInsert recLt a (List.insertionSort recLt t)).Pairwise recLt
    refine pairwise_orderedInsert a _ hs ?_
    intro b hb heq
    have hbt : b ∈ t := ((List.perm_insertionSort recLt t).mem_iff).mp hb
    exact h2.1 b hbt heq.symm

instance : IsAntisymm Record recLt := ⟨fun _ _ h1 h2 => absurd h1 (lt_asymm h2)⟩

/-- C7: the record collection handed to the packer is sorted by the strict
total order on identity strings, and for record sets with pairwise-distinct
identities the sorted sequence is unique: any two permutations of the same
records sort to the identical list, so the packer input (and hence the
artifact) is deterministic. -/
theorem sort_deterministic (l1 l2 : List Record)
    (hperm : l1.Perm l2) (hnd : (l1.map Record.id).Nodup) :
    (sort l1).Pairwise recLt ∧ sort l1 = sort l2 := by
  have hnd2 : (l2.map Record.id).Nodup := ((hperm.map Record.id).nodup_iff).mp hnd
  have s1 := sort_pairwise l1 hnd
  have s2 := sort_pairwise l2 hnd2
  refine ⟨s1, List.eq_of_perm_of_sorted ?_ s1 s2⟩
  exact (List.perm_insertionSort recLt l1).trans
    (hperm.trans (List.perm_insertionSort recLt l2).symm)

/-- C7 witness: the determinism theorem applied to two concrete permutations
of the same two-record set. -/
theorem sort_deterministic_witness :
    ([recB, recA].Perm [recA, recB] ∧ (([recB, recA].map Record.id)).Nodup) ∧
      ((sort [recB, recA]).Pairwise recLt ∧ sort [recB, recA] = sort [recA, recB]) :=
  ⟨⟨by decide, by decide⟩, sort_deterministic [recB, recA] [recA, recB] (by decide) (by decide)⟩

/-- C10 counterexample: the json normalization of the first variant in
src/index.js (lines 36-38) does not append the trailing semicolon, so its
result differs from the claimed string. -/
theorem jsonV0_no_semicolon :
    (jsonV0 jsonFixture).contents ≠ "module.exports = " ++ jsonFixture.contents ++ ";" := by
  decide

/-- C10 (amended): the stabilized json normalization (part_001 lines 60-62,
same in part_000 and the second src/index.js variant) replaces the contents
with exactly the assignment expression followed by a trailing semicolon and
changes no other field of the module. -/
theorem json_normalization (f : File) :
    (json f).contents = "module.exports = " ++ f.contents ++ ";" ∧
    (json f).path = f.path ∧ (json f).id = f.id ∧ (json f).type = f.type ∧
    (json f).entry = f.entry ∧ (json f).bundle = f.bundle ∧
    (json f).deps = f.deps ∧ (json f).mapping = f.mapping ∧ (json f).pkg = f.pkg :=
  ⟨rfl, rfl, rfl, rfl, rfl, rfl, rfl, rfl, rfl⟩

/-- C1 (code bug): with shared-bundle mode active, folding the completed
non-root node p.js — which is not routed to the shared bundle — merges only
its (empty) accumulated buffer into its sole current dependant a.js: the
prepared record of p.js is not merged into a.js's mapping buffer. With
shared-bundle mode off, the very same fold does merge the record, so the
claimed mode-independence fails on the code. -/
theorem pack_bundleMode_drops_record :
    isRoot bugTree fileP = false ∧ fileP.bundle = false ∧
    (bugTree.dependantsOf "p.js").map File.path = ["a.js"] ∧
    (((pack bundleConfig 0 (bugTree, noBundles, []) "p.js").1.findFile "a.js").map File.mapping)
      = some [] ∧
    (((pack plainConfig 0 (bugTree, noBundles, []) "p.js").1.findFile "a.js").map File.mapping)
      = some [("p.js", prepare plainConfig bugTree fileP)] := by
  decide

/-- C6 (code bug): at the same input the folded node p.js has every inbound
edge removed and, being a non-root, is removed from the graph — but at that
point its prepared record has been folded neither into its dependant's
mapping buffer (still empty) nor into the shared-bundle collection (still
empty), so a node is removed before it has been folded anywhere. -/
theorem pack_removes_unfolded_node :
    ((pack bundleConfig 0 (bugTree, noBundles, []) "p.js").1.findFile "p.js" = none) ∧
    ((pack bundleConfig 0 (bugTree, noBundles, []) "p.js").1.edges = []) ∧
    (((pack bundleConfig 0 (bugTree, noBundles, []) "p.js").1.findFile "a.js").map File.mapping
      = some []) ∧
    (bget (pack bundleConfig 0 (bugTree, noBundles, []) "p.js").2.1 0 = some []) := by
  decide

/-- C4 (code bug): in the shared-bundle build over a.js -> p.js, the emitted
bundle for a.js holds a record whose specifier map references the identity
p.js — the identity of a real module of this build (present as a file, so not
a built-in shim) — yet no record with id p.js exists in that bundle nor in the
shared bundle: the referenced identity has a record in neither place. -/
theorem packAll_missing_reference :
    (bugTree.findFile "p.js" = some fileP) ∧
    ((packAll bundleConfig 0 bugTree noBundles ["p.js", "a.js"]).2.2.map Output.path
        = ["a.js", "shared.js"]) ∧
    (∃ o ∈ (packAll bundleConfig 0 bugTree noBundles ["p.js", "a.js"]).2.2,
        ∃ r ∈ o.mapping, ("./p", "p.js") ∈ r.deps) ∧
    (∀ o ∈ (packAll bundleConfig 0 bugTree noBundles ["p.js", "a.js"]).2.2,
        ∀ r ∈ o.mapping, r.id ≠ "p.js") := by
  decide

theorem except_bind_error {ε α β : Type} (e : ε) (k : α → Except ε β) :
    (Except.error e >>= k) = Except.error e := rfl

theorem except_bind_ok {ε α β : Type} (a : α) (k : α → Except ε β) :
    (Except.ok a >>= k) = k a := rfl

theorem mapM_loop_error {α β : Type} (g : α → Except BuildError β) :
    ∀ (l : List α) (acc : List β) (a : α), a ∈ l → (∃ e, g a = .error e) →
      ∃ e2, List.mapM.loop g l acc = .error e2
  | b :: t, acc, a, hmem, ⟨e, he⟩ => by
    rcases List.mem_cons.mp hmem with rfl | hmem2
    · cases hb : g a with
      | error e2 => exact ⟨e2, by simp [List.mapM.loop, hb, except_bind_error]⟩
      | ok v => exact absurd he (by simp [hb])
    · cases hb : g b with
      | error e2 => exact ⟨e2, by simp [List.mapM.loop, hb, except_bind_error]⟩
      | ok v =>
        obtain ⟨e3, he3⟩ := mapM_loop_error g t (v :: acc) a hmem2 ⟨e, he⟩
        exact ⟨e3, by simp [List.mapM.loop, hb, he3, except_bind_ok]⟩

theorem mapM_error_of_mem {α β : Type} (g : α → Except BuildError β)
    (l : List α) (a : α) (hmem : a ∈ l) (herr : ∃ e, g a = .error e) :
    ∃ e, l.mapM g = .error e := by
  simpa [List.mapM] using mapM_loop_error g l [] a hmem herr

/-- C8: a script module whose contents fail the external syntax validation is
rejected with a parse error carrying the module's path and the reported
position, and this happens independently of the resolver, the extractor and
the postprocessor — resolution is never consulted for the module — and any
build containing the module rejects as a whole. -/
theorem check_blocks_resolution (cfg : Config) (checker : String → Option (Nat × Nat))
    (f : File) (l c : Nat) (files : List File)
    (hjs : f.type = "js") (hsyn : checker f.contents = some (l, c)) (hmem : f ∈ files) :
    (∀ resolver extract post,
        processOne cfg checker resolver extract post f = .error (.syntaxErr f.path l c)) ∧
    (∀ resolver extract post, ∃ e,
        build cfg checker resolver extract post files = .error e) := by
  have hone : ∀ resolver extract post,
      processOne cfg checker resolver extract post f = .error (.syntaxErr f.path l c) := by
    intro resolver extract post
    simp [processOne, hjs, check, id, hsyn]
  refine ⟨hone, ?_⟩
  intro resolver extract post
  exact mapM_error_of_mem _ files f hmem ⟨_, hone resolver extract post⟩

/-- C8 witness: the theorem applied to a concrete broken file and the
single-file build containing it. -/
theorem check_blocks_resolution_witness :
    (badSyntaxFile.type = "js" ∧ checker0 badSyntaxFile.contents = some (1, 10) ∧
      badSyntaxFile ∈ [badSyntaxFile]) ∧
    processOne plainConfig checker0 resolver0 extract0 post0 badSyntaxFile
      = .error (.syntaxErr "bad.js" 1 10) ∧
    (∃ e, build plainConfig checker0 resolver0 extract0 post0 [badSyntaxFile] = .error e) :=
  ⟨⟨rfl, by decide, by decide⟩, by
    have h := check_blocks_resolution plainConfig checker0 badSyntaxFile 1 10
      [badSyntaxFile] rfl (by decide) (by decide)
    exact ⟨h.1 resolver0 extract0 post0, h.2 resolver0 extract0 post0⟩⟩

/-- C5: a build whose entry module requires a specifier that the resolver can
match to no file and no built-in shim rejects as a whole with a resolution
error naming that specifier and the requesting module; the rejected result
carries no bundle. -/
theorem npm_unresolved_rejects (cfg : Config) (checker : String → Option (Nat × Nat))
    (resolver : String → String → Option (String × Option String))
    (extract : String → List String) (post : String → String) (f : File) (d : String)
    (hjs : f.type = "js") (hok : checker f.contents = none)
    (hex : extract (post f.contents) = [d]) (hfail : resolver d f.path = none) :
    processOne cfg checker resolver extract post f = .error (.resolutionErr d f.path) ∧
    build cfg checker resolver extract post [f] = .error (.resolutionErr d f.path) := by
  have hone : processOne cfg checker resolver extract post f
      = .error (.resolutionErr d f.path) := by
    simp [processOne, hjs, check, id, hok, npm, hex, hfail]
  refine ⟨hone, ?_⟩
  simp [build, List.mapM, List.mapM.loop, hone, except_bind_error]

/-- C5 witness: the theorem applied to a concrete entry whose single require
resolves to nothing. -/
theorem npm_unresolved_rejects_witness :
    (fileA.type = "js" ∧ checker0 fileA.contents = none ∧
      extract0 (post0 fileA.contents) = ["./missing"] ∧
      resolver0 "./missing" fileA.path = none) ∧
    processOne plainConfig checker0 resolver0 extract0 post0 fileA
      = .error (.resolutionErr "./missing" "a.js") ∧
    build plainConfig checker0 resolver0 extract0 post0 [fileA]
      = .error (.resolutionErr "./missing" "a.js") :=
  ⟨⟨rfl, by decide, by decide, rfl⟩,
    npm_unresolved_rejects plainConfig checker0 resolver0 extract0 post0 fileA
      "./missing" rfl (by decide) (by decide) rfl⟩

/-- C9 counterexample: in the second part_000 variant the mapping accumulator
lives on the plugin instance (line 189), so when build 1 (tree 1, file
one/a.js) and then build 2 (a distinct tree, file two/b.js) run through the
same plugin instance, the packer input of build 2 contains the record
contributed by build 1 — refuting that two independent builds never observe
each other's records. -/
theorem pluginMapping_leaks_across_builds :
    ((packV2 (combineV2 (treeB2, (combineV2 (treeB1, []) "one/a.js").2) "two/b.js").2 fb2).1).map
        Prod.fst = ["one/a.js", "two/b.js"] := by
  decide

theorem bget_bset_self (bs : Bundles) (tid : Nat) (m : SharedMap) :
    bget (bset bs tid m) tid = some m := by
  simp [bget, bset]

theorem bget_bset_other (bs : Bundles) (tid k : Nat) (m : SharedMap) (h : k ≠ tid) :
    bget (bset bs tid m) k = bget bs k := by
  simp [bget, bset, h]

theorem getBundle_fst_congr (bs1 bs2 : Bundles) (tid : Nat)
    (h : bget bs1 tid = bget bs2 tid) :
    (getBundle bs1 tid).1 = (getBundle bs2 tid).1 := by
  cases hg : bget bs2 tid with
  | none => simp [getBundle, h, hg]
  | some m => simp [getBundle, h, hg]

theorem getBundle_bget_self (bs : Bundles) (tid : Nat) :
    bget (getBundle bs tid).2 tid = some (getBundle bs tid).1 := by
  cases hg : bget bs tid with
  | none => simp [getBundle, hg, bget_bset_self]
  | some m => simp [getBundle, hg]

theorem getBundle_bget_other (bs : Bundles) (tid k : Nat) (h : k ≠ tid) :
    bget (getBundle bs tid).2 k = bget bs k := by
  cases hg : bget bs tid with
  | none => simp [getBundle, hg, bget_bset_other _ _ _ _ h]
  | some m => simp [getBundle, hg]

theorem writeBack_bget_other (bs : Bundles) (tid k : Nat) (b : Option SharedMap) (h : k ≠ tid) :
    bget (writeBack bs tid b) k = bget bs k := by
  cases b with
  | none => rfl
  | some m => simp [writeBack, bget_bset_other _ _ _ _ h]

theorem pack_eq_none (cfg : Config) (tid : Nat) (t : Tree) (bs : Bundles)
    (outs : List Output) (p : String) (hf : t.findFile p = none) :
    pack cfg tid (t, bs, outs) p = (t, bs, outs) := by
  simp [pack, hf]

theorem pack_eq_some_nobundle (cfg : Config) (tid : Nat) (t : Tree) (bs : Bundles)
    (outs : List Output) (p : String) (file : File)
    (hf : t.findFile p = some file) (hcb : cfg.bundle = none) :
    pack cfg tid (t, bs, outs) p =
      ((packCore cfg t outs file p none).1,
       writeBack bs tid (packCore cfg t outs file p none).2.1,
       (packCore cfg t outs file p none).2.2) := by
  simp [pack, hf, hcb]

theorem pack_eq_some_bundle (cfg : Config) (tid : Nat) (t : Tree) (bs : Bundles)
    (outs : List Output) (p : String) (file : File) (b : String)
    (hf : t.findFile p = some file) (hcb : cfg.bundle = some b) :
    pack cfg tid (t, bs, outs) p =
      ((packCore cfg t outs file p (some (getBundle bs tid).1)).1,
       writeBack (getBundle bs tid).2 tid
         (packCore cfg t outs file p (some (getBundle bs tid).1)).2.1,
       (packCore cfg t outs file p (some (getBundle bs tid).1)).2.2) := by
  simp [pack, hf, hcb]

theorem pack_respects_bget (cfg : Config) (tid : Nat) (st1 st2 : Tree × Bundles × List Output)
    (p : String) (ht : st1.1 = st2.1) (ho : st1.2.2 = st2.2.2)
    (h : bget st1.2.1 tid = bget st2.2.1 tid) :
    (pack cfg tid st1 p).1 = (pack cfg tid st2 p).1 ∧
    (pack cfg tid st1 p).2.2 = (pack cfg tid st2 p).2.2 ∧
    bget (pack cfg tid st1 p).2.1 tid = bget (pack cfg tid st2 p).2.1 tid := by
  obtain ⟨t, bs1, outs⟩ := st1
  obtain ⟨t2', bs2, outs2'⟩ := st2
  simp only at ht ho h
  subst ht
  subst ho
  cases hf : t.findFile p with
  | none =>
    rw [pack_eq_none cfg tid t bs1 outs p hf, pack_eq_none cfg tid t bs2 outs p hf]
    exact ⟨rfl, rfl, h⟩
  | some file =>
    cases hcb : cfg.bundle with
    | none =>
      rw [pack_eq_some_nobundle cfg tid t bs1 outs p file hf hcb,
          pack_eq_some_nobundle cfg tid t bs2 outs p file hf hcb]
      refine ⟨rfl, rfl, ?_⟩
      cases hr : (packCore cfg t outs file p none).2.1 with
      | none => simpa [writeBack] using h
      | some m => simp [writeBack, bget_bset_self]
    | some bpath =>
      have hg1 : (getBundle bs1 tid).1 = (getBundle bs2 tid).1 :=
        getBundle_fst_congr bs1 bs2 tid h
      rw [pack_eq_some_bundle cfg tid t bs1 outs p file bpath hf hcb,
          pack_eq_some_bundle cfg tid t bs2 outs p file bpath hf hcb, hg1]
      refine ⟨rfl, rfl, ?_⟩
      cases hr : (packCore cfg t outs file p (some (getBundle bs2 tid).1)).2.1 with
      | none => simp [writeBack, getBundle_bget_self, hg1]
      | some m => simp [writeBack, bget_bset_self]

theorem pack_bget_other (cfg : Config) (tid k : Nat) (st : Tree × Bundles × List Output)
    (p : String) (h : k ≠ tid) :
    bget (pack cfg tid st p).2.1 k = bget st.2.1 k := by
  obtain ⟨t, bs, outs⟩ := st
  cases hf : t.findFile p with
  | none => rw [pack_eq_none cfg tid t bs outs p hf]
  | some file =>
    cases hcb : cfg.bundle with
    | none =>
      rw [pack_eq_some_nobundle cfg tid t bs outs p file hf hcb]
      exact writeBack_bget_other _ _ _ _ h
    | some bpath =>
      rw [pack_eq_some_bundle cfg tid t bs outs p file bpath hf hcb]
      rw [writeBack_bget_other _ _ _ _ h, getBundle_bget_other _ _ _ h]

theorem packFold_respects (cfg : Config) (tid : Nat) :
    ∀ (order : List String) (st1 st2 : Tree × Bundles × List Output),
      st1.1 = st2.1 → st1.2.2 = st2.2.2 → bget st1.2.1 tid = bget st2.2.1 tid →
      (order.foldl (pack cfg tid) st1).1 = (order.foldl (pack cfg tid) st2).1 ∧
      (order.foldl (pack cfg tid) st1).2.2 = (order.foldl (pack cfg tid) st2).2.2 ∧
      bget (order.foldl (pack cfg tid) st1).2.1 tid
        = bget (order.foldl (pack cfg tid) st2).2.1 tid
  | [], _, _, ht, ho, h => ⟨ht, ho, h⟩
  | p :: rest, st1, st2, ht, ho, h => by
    obtain ⟨h1, h2, h3⟩ := pack_respects_bget cfg tid st1 st2 p ht ho h
    simp only [List.foldl_cons]
    exact packFold_respects cfg tid rest (pack cfg tid st1 p) (pack cfg tid st2 p) h1 h2 h3

theorem packFold_bget_other (cfg : Config) (tid k : Nat) (h : k ≠ tid) :
    ∀ (order : List String) (st : Tree × Bundles × List Output),
      bget (order.foldl (pack cfg tid) st).2.1 k = bget st.2.1 k
  | [], _ => rfl
  | p :: rest, st => by
    simp only [List.foldl_cons]
    rw [packFold_bget_other cfg tid k h rest (pack cfg tid st p),
      pack_bget_other cfg tid k st p h]

/-- C9 (amended): in the stabilized variant (part_001), mapping buffers live
on the files of each build's own tree and the shared-bundle accumulator is
fetched from a WeakMap keyed by the build tree, so two builds over distinct
trees are isolated: the tree and the packer outputs produced by the second
build are identical whether or not the first build ran through the same
plugin instance beforehand. -/
theorem perBuildIsolation (cfg : Config) (id1 id2 : Nat) (t1 t2 : Tree)
    (ord1 ord2 : List String) (h : id1 ≠ id2) :
    (packAll cfg id2 t2 (packAll cfg id1 t1 noBundles ord1).2.1 ord2).1
      = (packAll cfg id2 t2 noBundles ord2).1 ∧
    (packAll cfg id2 t2 (packAll cfg id1 t1 noBundles ord1).2.1 ord2).2.2
      = (packAll cfg id2 t2 noBundles ord2).2.2 := by
  have hb : bget (packAll cfg id1 t1 noBundles ord1).2.1 id2 = bget noBundles id2 := by
    unfold packAll
    exact packFold_bget_other cfg id1 id2 (Ne.symm h) ord1 (t1, noBundles, [])
  have main := packFold_respects cfg id2 ord2
    (t2, (packAll cfg id1 t1 noBundles ord1).2.1, []) (t2, noBundles, []) rfl rfl hb
  exact ⟨main.1, main.2.1⟩

/-- C9 witness: the isolation theorem applied to two concrete single-file
builds through the same plugin instance. -/
theorem perBuildIsolation_witness :
    ((0 : Nat) ≠ 1) ∧
    ((packAll bundleConfig 1 treeB2
        (packAll bundleConfig 0 treeB1 noBundles ["one/a.js"]).2.1 ["two/b.js"]).1
      = (packAll bundleConfig 1 treeB2 noBundles ["two/b.js"]).1 ∧
     (packAll bundleConfig 1 treeB2
        (packAll bundleConfig 0 treeB1 noBundles ["one/a.js"]).2.1 ["two/b.js"]).2.2
      = (packAll bundleConfig 1 treeB2 noBundles ["two/b.js"]).2.2) :=
  ⟨by decide,
    perBuildIsolation bundleConfig 0 1 treeB1 treeB2 ["one/a.js"] ["two/b.js"] (by decide)⟩

theorem mem_childPaths_of_step {edges : List (String × String)} {a b : String}
    (h : DepStep edges a b) : b ∈ childPaths edges a := by
  unfold childPaths
  exact List.mem_map.mpr ⟨(a, b), List.mem_filter.mpr ⟨h, by simp⟩, rfl⟩

theorem childPaths_subset_targets (edges : List (String × String)) (p : String) :
    childPaths edges p ⊆ (edges.map Prod.snd).dedup := by
  intro x hx
  rw [List.mem_dedup]
  unfold childPaths at hx
  rcases List.mem_map.mp hx with ⟨e, he, rfl⟩
  exact List.mem_map.mpr ⟨e, (List.mem_filter.mp he).1, rfl⟩

theorem subset_closeAux (edges : List (String × String)) :
    ∀ (n : Nat) (s : List String), s ⊆ closeAux edges n s
  | 0, _ => fun _ h => h
  | n+1, s => by
    cases hns : (expandNew edges s).isEmpty with
    | true => simp [closeAux, hns]
    | false =>
      have heq : closeAux edges (n+1) s = closeAux edges n (s ++ expandNew edges s) := by
        simp [closeAux, hns]
      rw [heq]
      exact fun x hx =>
        subset_closeAux edges n (s ++ expandNew edges s) (List.mem_append_left _ hx)

theorem closed_of_expandNew_empty (edges : List (String × String)) (s : List String)
    (h : (expandNew edges s).isEmpty = true) : ClosedUnder edges s := by
  intro q hq r hr
  by_contra hrs
  have hmem : r ∈ expandNew edges s := by
    unfold expandNew
    rw [List.mem_filter]
    exact ⟨List.mem_dedup.mpr (List.mem_flatMap.mpr ⟨q, hq, hr⟩), by simpa using hrs⟩
  rw [List.isEmpty_iff] at h
  rw [h] at hmem
  cases hmem

theorem closeAux_closed (edges : List (String × String)) :
    ∀ (n : Nat) (s : List String), s.Nodup → s ⊆ (edges.map Prod.snd).dedup →
      (edges.map Prod.snd).dedup.length + 1 ≤ n + s.length →
      ClosedUnder edges (closeAux edges n s)
  | 0, s, hnd, hsub, hn => by
    exfalso
    have hle : s.length ≤ (edges.map Prod.snd).dedup.length := (hnd.subperm hsub).length_le
    omega
  | n+1, s, hnd, hsub, hn => by
    cases hns : (expandNew edges s).isEmpty with
    | true =>
      have heq : closeAux edges (n+1) s = s := by simp [closeAux, hns]
      rw [heq]
      exact closed_of_expandNew_empty edges s hns
    | false =>
      have heq : closeAux edges (n+1) s = closeAux edges n (s ++ expandNew edges s) := by
        simp [closeAux, hns]
      rw [heq]
      have hnodupNew : (expandNew edges s).Nodup := List.Nodup.filter _ (List.nodup_dedup _)
      have hdisj : s.Disjoint (expandNew edges s) := by
        intro a has hane
        have h2 := (List.mem_filter.mp hane).2
        simp at h2
        exact h2 has
      have hsubNew : expandNew edges s ⊆ (edges.map Prod.snd).dedup := by
        intro x hx
        have hx1 := (List.mem_filter.mp hx).1
        rw [List.mem_dedup] at hx1
        rcases List.mem_flatMap.mp hx1 with ⟨q, _, hxq⟩
        exact childPaths_subset_targets edges q hxq
      have hne : expandNew edges s ≠ [] := by
        intro hcon
        rw [hcon] at hns
        simp at hns
      have hlen : 1 ≤ (expandNew edges s).length := by
        cases hx : expandNew edges s with
        | nil => exact absurd hx hne
        | cons a l => simp
      refine closeAux_closed edges n (s ++ expandNew edges s)
        (List.Nodup.append hnd hnodupNew hdisj) ?_ ?_
      · intro x hx
        rcases List.mem_append.mp hx with h1 | h2
        · exact hsub h1
        · exact hsubNew h2
      · simp only [List.length_append]
        omega

theorem childPaths_subset_dependenciesRec (edges : List (String × String)) (p : String) :
    childPaths edges p ⊆ dependenciesRec edges p := by
  intro x hx
  exact subset_closeAux edges _ _ (List.mem_dedup.mpr hx)

theorem dependenciesRec_closed (edges : List (String × String)) (p : String) :
    ClosedUnder edges (dependenciesRec edges p) := by
  refine closeAux_closed edges _ _ (List.nodup_dedup _) ?_ ?_
  · intro x hx
    exact childPaths_subset_targets edges p (List.mem_dedup.mp hx)
  · omega

theorem closure_mem_of_closed (edges : List (String × String)) (S : List String)
    (hS : ClosedUnder edges S) {q r : String} (h : InClosure edges q r) (hq : q ∈ S) :
    r ∈ S := by
  induction h with
  | single hstep => exact hS _ hq _ (mem_childPaths_of_step hstep)
  | tail _ hstep ih => exact hS _ ih _ (mem_childPaths_of_step hstep)

theorem closure_subset_dependenciesRec (edges : List (String × String)) (p : String) :
    ∀ q, InClosure edges p q → q ∈ dependenciesRec edges p := by
  intro q h
  induction h with
  | single hstep =>
    exact childPaths_subset_dependenciesRec edges p (mem_childPaths_of_step hstep)
  | tail _ hstep ih =>
    exact dependenciesRec_closed edges p _ ih _ (mem_childPaths_of_step hstep)

theorem markPath_edges (t : Tree) (p : String) : (t.markPath p).edges = t.edges := rfl

theorem markPath_findFile (t : Tree) (p q : String) :
    (t.markPath p).findFile q
      = (t.findFile q).map (fun f => if f.path == p then { f with bundle := true } else f) := by
  unfold Tree.markPath Tree.findFile
  rw [List.find?_map]
  have hpred : ((fun f : File => f.path == q) ∘
      fun f : File => if f.path == p then { f with bundle := true } else f)
        = (fun f : File => f.path == q) := by
    funext f
    by_cases hf : f.path = p
    · simp [hf]
    · simp [hf]
  rw [hpred]

theorem isMarked_markPath (t : Tree) (p q : String) :
    (t.markPath p).isMarked q
      = (t.isMarked q || (q == p && (t.findFile q).isSome)) := by
  unfold Tree.isMarked
  rw [markPath_findFile]
  cases hf : t.findFile q with
  | none => simp
  | some f =>
    have hf2 : List.find? (fun f : File => f.path == q) t.files = some f := hf
    have hq := List.find?_some hf2
    have hqe : f.path = q := by simpa using hq
    by_cases hqp : q = p
    · simp [hqp, hqe]
    · have h2 : (q == p) = false := by simp [hqp]
      simp [hqe, hqp, h2]

theorem foldl_markPath_edges :
    ∀ (l : List String) (t : Tree), (l.foldl Tree.markPath t).edges = t.edges
  | [], _ => rfl
  | p :: rest, t => by
    simp only [List.foldl_cons]
    rw [foldl_markPath_edges rest, markPath_edges]

theorem markPath_findFile_isSome (t : Tree) (p q : String) :
    ((t.markPath p).findFile q).isSome = (t.findFile q).isSome := by
  rw [markPath_findFile]
  cases t.findFile q <;> rfl

theorem foldl_markPath_findFile_isSome :
    ∀ (l : List String) (t : Tree) (q : String),
      ((l.foldl Tree.markPath t).findFile q).isSome = (t.findFile q).isSome
  | [], _, _ => rfl
  | p :: rest, t, q => by
    simp only [List.foldl_cons]
    rw [foldl_markPath_findFile_isSome rest, markPath_findFile_isSome]

theorem isMarked_mono_markPath (t : Tree) (p q : String) (h : t.isMarked q = true) :
    (t.markPath p).isMarked q = true := by
  rw [isMarked_markPath, h]
  rfl

theorem isMarked_mono_foldl :
    ∀ (l : List String) (t : Tree) (q : String), t.isMarked q = true →
      (l.foldl Tree.markPath t).isMarked q = true
  | [], _, _, h => h
  | p :: rest, t, q, h => by
    simp only [List.foldl_cons]
    exact isMarked_mono_foldl rest _ q (isMarked_mono_markPath t p q h)

theorem isMarked_markPath_self (t : Tree) (p : String)
    (hf : (t.findFile p).isSome = true) : (t.markPath p).isMarked p = true := by
  rw [isMarked_markPath, hf]
  simp

theorem isMarked_foldl_mem :
    ∀ (l : List String) (t : Tree) (q : String), q ∈ l → (t.findFile q).isSome = true →
      (l.foldl Tree.markPath t).isMarked q = true
  | p :: rest, t, q, hmem, hf => by
    simp only [List.foldl_cons]
    rcases List.mem_cons.mp hmem with rfl | hmem2
    · exact isMarked_mono_foldl rest _ q (isMarked_markPath_self t q hf)
    · exact isMarked_foldl_mem rest _ q hmem2 (by rw [markPath_findFile_isSome, hf])

theorem isMarked_markPath_rev (t : Tree) (p q : String)
    (h : (t.markPath p).isMarked q = true) : q = p ∨ t.isMarked q = true := by
  rw [isMarked_markPath] at h
  rcases Bool.or_eq_true_iff.mp h with h1 | h2
  · exact Or.inr h1
  · exact Or.inl (by simpa using (Bool.and_eq_true_iff.mp h2).1)

theorem isMarked_foldl_rev :
    ∀ (l : List String) (t : Tree) (q : String),
      (l.foldl Tree.markPath t).isMarked q = true → q ∈ l ∨ t.isMarked q = true
  | [], _, _, h => Or.inr h
  | p :: rest, t, q, h => by
    simp only [List.foldl_cons] at h
    rcases isMarked_foldl_rev rest _ q h with h1 | h2
    · exact Or.inl (List.mem_cons_of_mem _ h1)
    · rcases isMarked_markPath_rev t p q h2 with rfl | h3
      · exact Or.inl (List.mem_cons_self _ _)
      · exact Or.inr h3

theorem outDegree_congr (t t0 : Tree) (p : String) (he : t.edges = t0.edges) :
    t.outDegree p = t0.outDegree p := by
  unfold Tree.outDegree
  rw [he]

theorem bundleVisit_edges (t : Tree) (p : String) : (bundleVisit t p).edges = t.edges := by
  unfold bundleVisit
  cases hm : t.isMarked p with
  | true => simp
  | false =>
    simp only [Bool.false_eq_true, if_false]
    by_cases hd : t.outDegree p > 1
    · rw [if_pos hd]
      rw [foldl_markPath_edges, markPath_edges]
    · rw [if_neg hd]

theorem bundleVisit_findFile_isSome (t : Tree) (p q : String) :
    ((bundleVisit t p).findFile q).isSome = (t.findFile q).isSome := by
  unfold bundleVisit
  cases hm : t.isMarked p with
  | true => simp
  | false =>
    simp only [Bool.false_eq_true, if_false]
    by_cases hd : t.outDegree p > 1
    · rw [if_pos hd]
      rw [foldl_markPath_findFile_isSome, markPath_findFile_isSome]
    · rw [if_neg hd]

theorem bundleVisit_mono (t : Tree) (p q : String) (h : t.isMarked q = true) :
    (bundleVisit t p).isMarked q = true := by
  unfold bundleVisit
  cases hm : t.isMarked p with
  | true => simpa using h
  | false =>
    simp only [Bool.false_eq_true, if_false]
    by_cases hd : t.outDegree p > 1
    · rw [if_pos hd]
      exact isMarked_mono_foldl _ _ q (isMarked_mono_markPath t p q h)
    · rw [if_neg hd]
      exact h

theorem bundleVisit_marked_id (t : Tree) (p : String) (h : t.isMarked p = true) :
    bundleVisit t p = t := by
  unfold bundleVisit
  rw [h]
  simp

theorem bundleVisit_marks (t : Tree) (p : String) (hdeg : t.outDegree p > 1)
    (hf : (t.findFile p).isSome = true) : (bundleVisit t p).isMarked p = true := by
  unfold bundleVisit
  cases hm : t.isMarked p with
  | true => simpa using hm
  | false =>
    simp only [Bool.false_eq_true, if_false]
    rw [if_pos hdeg]
    exact isMarked_mono_foldl _ _ p (isMarked_markPath_self t p hf)

theorem bundleVisit_markedClosed (t0 t : Tree) (p : String)
    (he : t.edges = t0.edges)
    (hd : ∀ q, (t.findFile q).isSome = (t0.findFile q).isSome)
    (hc : MarkedClosed t0 t) : MarkedClosed t0 (bundleVisit t p) := by
  unfold bundleVisit
  cases hm : t.isMarked p with
  | true => simpa using hc
  | false =>
    simp only [Bool.false_eq_true, if_false]
    by_cases hdeg : t.outDegree p > 1
    · rw [if_pos hdeg]
      intro q hq r hr hrf
      have hmark : ∀ x, x ∈ dependenciesRec t0.edges p → (t0.findFile x).isSome = true →
          ((dependenciesRec (t.markPath p).edges p).foldl Tree.markPath
            (t.markPath p)).isMarked x = true := by
        intro x hx hxf
        refine isMarked_foldl_mem _ _ x ?_ ?_
        · rw [markPath_edges, he]
          exact hx
        · rw [markPath_findFile_isSome, hd]
          exact hxf
      rcases isMarked_foldl_rev _ _ q hq with hql | hqm
      · rw [markPath_edges, he] at hql
        have hrS : r ∈ dependenciesRec t0.edges p :=
          closure_mem_of_closed t0.edges _ (dependenciesRec_closed t0.edges p) hr hql
        exact hmark r hrS hrf
      · rcases isMarked_markPath_rev t p q hqm with rfl | hmq
        · have hrS : r ∈ dependenciesRec t0.edges q :=
            closure_subset_dependenciesRec t0.edges q r hr
          exact hmark r hrS hrf
        · have hrm := hc q hmq r hr hrf
          exact isMarked_mono_foldl _ _ r (isMarked_mono_markPath t p r hrm)
    · rw [if_neg hdeg]
      exact hc

theorem bundleFold_markedClosed (t0 : Tree) :
    ∀ (l : List String) (t : Tree),
      t.edges = t0.edges → (∀ q, (t.findFile q).isSome = (t0.findFile q).isSome) →
      MarkedClosed t0 t →
      (l.foldl bundleVisit t).edges = t0.edges ∧
      (∀ q, ((l.foldl bundleVisit t).findFile q).isSome = (t0.findFile q).isSome) ∧
      MarkedClosed t0 (l.foldl bundleVisit t)
  | [], _, he, hd, hc => ⟨he, hd, hc⟩
  | p :: rest, t, he, hd, hc => by
    simp only [List.foldl_cons]
    exact bundleFold_markedClosed t0 rest (bundleVisit t p)
      (by rw [bundleVisit_edges, he])
      (fun q => by rw [bundleVisit_findFile_isSome, hd])
      (bundleVisit_markedClosed t0 t p he hd hc)

theorem bundleFold_mono :
    ∀ (l : List String) (t : Tree) (q : String), t.isMarked q = true →
      (l.foldl bundleVisit t).isMarked q = true
  | [], _, _, h => h
  | p :: rest, t, q, h => by
    simp only [List.foldl_cons]
    exact bundleFold_mono rest _ q (bundleVisit_mono t p q h)

theorem bundleFold_marks (t0 : Tree) :
    ∀ (l : List String) (t : Tree),
      t.edges = t0.edges → (∀ q, (t.findFile q).isSome = (t0.findFile q).isSome) →
      ∀ p ∈ l, t0.outDegree p > 1 → (t0.findFile p).isSome = true →
        (l.foldl bundleVisit t).isMarked p = true
  | p0 :: rest, t, he, hd, p, hmem, hdeg, hf => by
    simp only [List.foldl_cons]
    rcases List.mem_cons.mp hmem with rfl | hmem2
    · have hdeg2 : t.outDegree p > 1 := by
        rw [outDegree_congr t t0 p he]
        exact hdeg
      have hmarked := bundleVisit_marks t p hdeg2 (by rw [hd]; exact hf)
      exact bundleFold_mono rest _ p hmarked
    · exact bundleFold_marks t0 rest (bundleVisit t p0)
        (by rw [bundleVisit_edges, he])
        (fun q => by rw [bundleVisit_findFile_isSome, hd])
        p hmem2 hdeg hf

/-- C3: starting from a tree whose nodes are all unmarked, the partition pass
marks shared every script/JSON node whose out-degree (count of distinct
dependants) exceeds 1, and also marks every node of the tree in its
transitive dependency closure; a node already marked short-circuits its visit
(the visit is the identity, so no node's closure walk runs twice), and the
pass is a total function that the witness below evaluates on a cyclic
graph. -/
theorem bundle_marks_shared (t : Tree) (hinit : ∀ f ∈ t.files, f.bundle = false) :
    (∀ f ∈ t.files, (f.type = "js" ∨ f.type = "json") → t.outDegree f.path > 1 →
        (bundle t).isMarked f.path = true ∧
        (∀ q, InClosure t.edges f.path q → (t.findFile q).isSome = true →
          (bundle t).isMarked q = true)) ∧
    (∀ (u : Tree) (p : String), u.isMarked p = true → bundleVisit u p = u) := by
  have hnomark : ∀ q, t.isMarked q = false := by
    intro q
    unfold Tree.isMarked
    cases hf : t.findFile q with
    | none => rfl
    | some f =>
      have hmem : f ∈ t.files := List.mem_of_find?_eq_some hf
      simp [hinit f hmem]
  have hc0 : MarkedClosed t t := by
    intro q hq
    rw [hnomark q] at hq
    cases hq
  have hfold := bundleFold_markedClosed t
    ((t.files.filter (fun f => f.type == "js" || f.type == "json")).map File.path) t rfl
    (fun _ => rfl) hc0
  refine ⟨?_, fun u p h => bundleVisit_marked_id u p h⟩
  intro f hf htype hdeg
  have hfile : (t.findFile f.path).isSome = true := by
    unfold Tree.findFile
    rw [List.find?_isSome]
    exact ⟨f, hf, by simp⟩
  have hmem : f.path ∈
      (t.files.filter (fun f => f.type == "js" || f.type == "json")).map File.path := by
    refine List.mem_map.mpr ⟨f, List.mem_filter.mpr ⟨hf, ?_⟩, rfl⟩
    rcases htype with h | h <;> simp [h]
  have hmarked : (bundle t).isMarked f.path = true :=
    bundleFold_marks t _ t rfl (fun _ => rfl) f.path hmem hdeg hfile
  refine ⟨hmarked, ?_⟩
  intro q hq hqf
  exact hfold.2.2 f.path hmarked q hq hqf

/-- C3 witness: the theorem applied to a concrete cyclic graph — two entries
both requiring c.js, with the cycle c.js -> d.js -> c.js — on which the pass
terminates and the hypotheses are decidable. -/
theorem bundle_marks_shared_witness :
    (∀ f ∈ cycTree.files, f.bundle = false) ∧
    ((∀ f ∈ cycTree.files, (f.type = "js" ∨ f.type = "json") →
        cycTree.outDegree f.path > 1 →
        (bundle cycTree).isMarked f.path = true ∧
        (∀ q, InClosure cycTree.edges f.path q → (cycTree.findFile q).isSome = true →
          (bundle cycTree).isMarked q = true)) ∧
     (∀ (u : Tree) (p : String), u.isMarked p = true → bundleVisit u p = u)) :=
  ⟨by decide, bundle_marks_shared cycTree (by decide)⟩
